import Mathlib

set_option maxRecDepth 4000

/-!
Shallow embedding of the diff-rust front end (Vue/Pinia store `app.ts`, the
`useDiff` composable, and the `FileTree`/`DiffView` components), together with
theorems settling the specification claims about it.

Machine values: TypeScript numbers used as list indices are embedded as `Int`
where the source can hold `-1` (JS `findIndex`), otherwise as `Nat`; strings
are Lean `String`; `null`/`undefined` become `Option`.
-/

/-! ## Data model (src/stores/app.ts) -/

/-- `FileStatus` variants of `FileEntry.status` in `app.ts`. -/
inductive FileStatus where
  | Added
  | Deleted
  | Modified
  | Renamed
  | Unchanged
deriving DecidableEq, Repr

/-- `FileEntry` from `app.ts`: flattened leaf view used for navigation. -/
structure FileEntry where
  path : String
  name : String
  status : FileStatus
  is_dir : Bool
  left_path : Option String
  right_path : Option String
deriving DecidableEq, Repr

/-- `FileTreeNode` from `app.ts`; `status` is `null` for unchanged entries. -/
inductive FileTreeNode where
  | mk (name : String) (path : String) (status : Option FileStatus)
      (is_dir : Bool) (children : List FileTreeNode)
      (left_path : Option String) (right_path : Option String)
deriving Repr

def FileTreeNode.name : FileTreeNode → String
  | .mk n _ _ _ _ _ _ => n

def FileTreeNode.path : FileTreeNode → String
  | .mk _ p _ _ _ _ _ => p

def FileTreeNode.status : FileTreeNode → Option FileStatus
  | .mk _ _ st _ _ _ _ => st

def FileTreeNode.is_dir : FileTreeNode → Bool
  | .mk _ _ _ d _ _ _ => d

def FileTreeNode.children : FileTreeNode → List FileTreeNode
  | .mk _ _ _ _ c _ _ => c

def FileTreeNode.left_path : FileTreeNode → Option String
  | .mk _ _ _ _ _ l _ => l

def FileTreeNode.right_path : FileTreeNode → Option String
  | .mk _ _ _ _ _ _ r => r

/-- `DiffOptions` from `app.ts`: all four recognized options are booleans. -/
structure DiffOptions where
  side_by_side : Bool
  line_numbers : Bool
  collapsed : Bool
  show_whitespace : Bool
deriving DecidableEq, Repr

/-- The four keys of `DiffOptions` (`keyof DiffOptions` in the source). -/
inductive OptionKey where
  | side_by_side
  | line_numbers
  | collapsed
  | show_whitespace
deriving DecidableEq, Repr

/-- `DiffResult` from `app.ts`. -/
structure DiffResult where
  html : String
  has_changes : Bool
  hunk_count : Nat
  left_html : Option String
  right_html : Option String
deriving DecidableEq, Repr

/-! ## Hunk scan (findHunks in DiffView) -/

/-- The first list starts with the given pattern of characters. -/
def leadsWith : List Char → List Char → Bool
  | [], _ => true
  | _ :: _, [] => false
  | p :: ps, c :: cs => p == c && leadsWith ps cs

/-- The pattern occurs as a contiguous sublist. -/
def subSearch (pat : List Char) : List Char → Bool
  | [] => leadsWith pat []
  | c :: cs => leadsWith pat (c :: cs) || subSearch pat cs

/-- `pat` occurs as a substring of `s` (JS `String.prototype.includes`). -/
def strIncludes (s pat : String) : Bool :=
  subSearch pat.toList s.toList

/-- `isHunkSep` test in `findHunks`: the line's html contains a run of
box-drawing characters emitted by delta as a hunk separator. -/
def isHunkSep (html : String) : Bool :=
  strIncludes html "───" || strIncludes html "────"

/-- `isChangedLine` test in `findHunks`: the line's html carries a colored
background (changed content). -/
def isChangedLine (html : String) : Bool :=
  strIncludes html "background" || strIncludes html "bg-"

/-- The loop body of `findHunks` (DiffView component): walk the rendered lines
with the `inChange` flag, recording the index of each hunk start. -/
def findHunksAux : List String → Bool → Nat → List Nat
  | [], _, _ => []
  | line :: rest, inChange, i =>
    if isHunkSep line then
      i :: findHunksAux rest false (i + 1)
    else if isChangedLine line && !inChange then
      i :: findHunksAux rest true (i + 1)
    else if !isChangedLine line then
      findHunksAux rest false (i + 1)
    else
      findHunksAux rest inChange (i + 1)

/-- `findHunks` from the DiffView component, embedded over the list of
per-line html strings; returns the positions of hunk starts. -/
def findHunks (lines : List String) : List Nat :=
  findHunksAux lines false 0

/-- A line classified as changed by the scan: it matches the changed-line
test and is not claimed first by the separator test. -/
def chgLine (html : String) : Bool :=
  isChangedLine html && !isHunkSep html

/-- Spec-side scan, transliterated from the claim: record a hunk start at
every separator line, and at every changed line not immediately preceded by a
changed line (transition into a change run); `prevChg` says whether the
previous line was a changed line. -/
def claimedHunksAux (prevChg : Bool) (i : Nat) : List String → List Nat
  | [] => []
  | line :: rest =>
    let out := claimedHunksAux (chgLine line) (i + 1) rest
    if isHunkSep line || (chgLine line && !prevChg) then i :: out else out

/-- Spec-side hunk scan: hunk starts are exactly the separator lines plus the
heads of maximal runs of consecutive changed lines. -/
def claimedHunks (lines : List String) : List Nat :=
  claimedHunksAux false 0 lines

theorem findHunksAux_eq_claimedHunksAux (lines : List String) :
    ∀ b i, findHunksAux lines b i = claimedHunksAux b i lines := by
  induction lines with
  | nil => intro b i; rfl
  | cons line rest ih =>
    intro b i
    by_cases hsep : isHunkSep line = true
    · simp [findHunksAux, claimedHunksAux, hsep, chgLine, ih]
    · simp only [Bool.not_eq_true] at hsep
      by_cases hchg : isChangedLine line = true
      · cases b with
        | false =>
          simp [findHunksAux, claimedHunksAux, hsep, hchg, chgLine, ih]
        | true =>
          simp [findHunksAux, claimedHunksAux, hsep, hchg, chgLine, ih]
      · simp only [Bool.not_eq_true] at hchg
        simp [findHunksAux, claimedHunksAux, hsep, hchg, chgLine, ih]

/-- C2: the hunk scan records a hunk start exactly at every explicit separator
line and at every changed line that begins a run of consecutive changed lines
(the first changed line after a separator, after a context line, or at the
start of the stream); a run of consecutive changed lines contributes exactly
one hunk start — `findHunks` coincides with the transliteration of the claim's
heuristic. -/
theorem findHunks_eq_claimedHunks (lines : List String) :
    findHunks lines = claimedHunks lines :=
  findHunksAux_eq_claimedHunksAux lines false 0

/-- C7: on a rendered line sequence with no separator lines and no changed
lines, the hunk scan yields the empty hunk list. -/
theorem findHunks_no_changes_empty (lines : List String)
    (h : ∀ l ∈ lines, isHunkSep l = false ∧ isChangedLine l = false) :
    findHunks lines = [] := by
  have aux : ∀ (ls : List String), (∀ l ∈ ls, isHunkSep l = false ∧ isChangedLine l = false) →
      ∀ b i, findHunksAux ls b i = [] := by
    intro ls
    induction ls with
    | nil => intro _ b i; rfl
    | cons line rest ih =>
      intro hall b i
      have hline := hall line (by simp)
      have hrest : ∀ l ∈ rest, isHunkSep l = false ∧ isChangedLine l = false := by
        intro l hl; exact hall l (by simp [hl])
      simp [findHunksAux, hline.1, hline.2, ih hrest]
  exact aux lines h false 0

/-- C7 witness: a concrete two-line stream with neither separators nor changed
lines produces zero hunks. -/
theorem findHunks_no_changes_empty_witness :
    findHunks ["context line one", "context line two"] = [] :=
  findHunks_no_changes_empty ["context line one", "context line two"] (by decide)

/-! ## Store state and actions (src/stores/app.ts) -/

/-- The Pinia store state of `app.ts`: one field per `ref` of the store. -/
structure AppState where
  leftDir : Option String
  rightDir : Option String
  fileTree : List FileTreeNode
  files : List FileEntry
  totalChanges : Nat
  addedCount : Nat
  deletedCount : Nat
  modifiedCount : Nat
  selectedFile : Option FileEntry
  currentDiff : Option DiffResult
  isLoadingDiff : Bool
  diffError : Option String
  viewOptions : DiffOptions
  deltaInstalled : Bool
  isLoadingTree : Bool
  treeError : Option String

/-- The initial values of the store refs in `app.ts`. -/
def initState : AppState where
  leftDir := none
  rightDir := none
  fileTree := []
  files := []
  totalChanges := 0
  addedCount := 0
  deletedCount := 0
  modifiedCount := 0
  selectedFile := none
  currentDiff := none
  isLoadingDiff := false
  diffError := none
  viewOptions := ⟨true, true, true, false⟩
  deltaInstalled := true
  isLoadingTree := false
  treeError := none

/-- `selectFile` action: set the selection, clear the diff and its error. -/
def selectFile (file : Option FileEntry) (s : AppState) : AppState :=
  { s with selectedFile := file, currentDiff := none, diffError := none }

/-- `setDiff` action. -/
def setDiff (result : DiffResult) (s : AppState) : AppState :=
  { s with currentDiff := some result, isLoadingDiff := false, diffError := none }

/-- `setDiffLoading` action. -/
def setDiffLoading (loading : Bool) (s : AppState) : AppState :=
  { s with isLoadingDiff := loading }

/-- `setDiffError` action. -/
def setDiffError (error : String) (s : AppState) : AppState :=
  { s with diffError := some error, isLoadingDiff := false, currentDiff := none }

/-- `setDeltaInstalled` action. -/
def setDeltaInstalled (installed : Bool) (s : AppState) : AppState :=
  { s with deltaInstalled := installed }

/-- `toggleViewOption` on the options record; the source's `typeof ===
'boolean'` guard always holds since every `DiffOptions` field is boolean. -/
def toggleViewOption (o : DiffOptions) (key : OptionKey) : DiffOptions :=
  match key with
  | .side_by_side => { o with side_by_side := !o.side_by_side }
  | .line_numbers => { o with line_numbers := !o.line_numbers }
  | .collapsed => { o with collapsed := !o.collapsed }
  | .show_whitespace => { o with show_whitespace := !o.show_whitespace }

/-- The store action `toggleViewOption` applied to the state. -/
def storeToggleViewOption (key : OptionKey) (s : AppState) : AppState :=
  { s with viewOptions := toggleViewOption s.viewOptions key }

/-- `flattenTree` from `app.ts`: recurse into directories, emit a `FileEntry`
for every non-directory node with a non-null status. -/
def flattenTree : List FileTreeNode → List FileEntry
  | [] => []
  | .mk name path status is_dir children lp rp :: rest =>
    (if is_dir then flattenTree children
     else
       match status with
       | some st => [⟨path, name, st, false, lp, rp⟩]
       | none => []) ++ flattenTree rest

theorem flattenTree_nil : flattenTree [] = [] := by
  rw [flattenTree.eq_def]

theorem flattenTree_cons (name path : String) (status : Option FileStatus)
    (is_dir : Bool) (children : List FileTreeNode) (lp rp : Option String)
    (rest : List FileTreeNode) :
    flattenTree (.mk name path status is_dir children lp rp :: rest) =
      (if is_dir then flattenTree children
       else
         match status with
         | some st => [⟨path, name, st, false, lp, rp⟩]
         | none => []) ++ flattenTree rest := by
  rw [flattenTree.eq_def]

/-- The `changedFiles` computed: the flattening of the current file tree. -/
def changedFiles (s : AppState) : List FileEntry :=
  flattenTree s.fileTree

/-- The `currentFileIndex` computed: JS `findIndex` over `changedFiles`,
`-1` when nothing is selected or the selected path does not occur. -/
def currentFileIndex (s : AppState) : Int :=
  match s.selectedFile with
  | none => -1
  | some f =>
    match (changedFiles s).findIdx? (fun e => e.path = f.path) with
    | some i => (i : Int)
    | none => -1

/-- The `canGoPrev` computed. -/
def canGoPrev (s : AppState) : Bool :=
  currentFileIndex s > 0

/-- The `canGoNext` computed. -/
def canGoNext (s : AppState) : Bool :=
  currentFileIndex s < ((changedFiles s).length : Int) - 1

/-- `selectPrevFile` action; JS indexing out of range yields `undefined`,
embedded as selecting `none`. -/
def selectPrevFile (s : AppState) : AppState :=
  if canGoPrev s then
    match (changedFiles s).get? (currentFileIndex s - 1).toNat with
    | some f => selectFile (some f) s
    | none => selectFile none s
  else s

/-- `selectNextFile` action. -/
def selectNextFile (s : AppState) : AppState :=
  if canGoNext s then
    match (changedFiles s).get? (currentFileIndex s + 1).toNat with
    | some f => selectFile (some f) s
    | none => selectFile none s
  else s

/-! ## The useDiff composable (diff loading, src/composables/useDiff.ts) -/

/-- One `get_diff` invocation as issued by `loadDiff`: the two nullable paths
and the options snapshot passed along. -/
structure DiffRequest where
  leftPath : Option String
  rightPath : Option String
  options : DiffOptions
deriving DecidableEq, Repr

/-- The store together with the log of `get_diff` invocations issued so far;
`invoke` is the only externally visible effect of the composable. -/
structure World where
  store : AppState
  requests : List DiffRequest

/-- The synchronous part of `loadDiff` up to and including the `invoke` call:
set the loading flag, select the file, and issue the `get_diff` request built
from the file's paths and the current view options. -/
def loadDiffStart (file : FileEntry) (w : World) : World :=
  let s := selectFile (some file) (setDiffLoading true w.store)
  { store := s
    requests := w.requests ++ [⟨file.left_path, file.right_path, s.viewOptions⟩] }

/-- The success continuation of `loadDiff`: `store.setDiff(result)`. -/
def loadDiffOk (result : DiffResult) (w : World) : World :=
  { w with store := setDiff result w.store }

/-- The failure continuation of `loadDiff`: `store.setDiffError(...)`. -/
def loadDiffErr (error : String) (w : World) : World :=
  { w with store := setDiffError error w.store }

/-- `refreshDiff`: reload the diff of the selected file, or do nothing when
no file is selected. -/
def refreshDiff (w : World) : World :=
  match w.store.selectedFile with
  | none => w
  | some f => loadDiffStart f w

/-- `toggleSideBySide` from the composable. -/
def toggleSideBySide (w : World) : World :=
  refreshDiff { w with store := storeToggleViewOption .side_by_side w.store }

/-- `toggleLineNumbers` from the composable. -/
def toggleLineNumbers (w : World) : World :=
  refreshDiff { w with store := storeToggleViewOption .line_numbers w.store }

/-- `toggleCollapsed` from the composable. -/
def toggleCollapsed (w : World) : World :=
  refreshDiff { w with store := storeToggleViewOption .collapsed w.store }

/-- `toggleWhitespace` from the composable. -/
def toggleWhitespace (w : World) : World :=
  refreshDiff { w with store := storeToggleViewOption .show_whitespace w.store }

/-- Dispatch from an option key to the composable's toggle function for it. -/
def toggleAction : OptionKey → World → World
  | .side_by_side => toggleSideBySide
  | .line_numbers => toggleLineNumbers
  | .collapsed => toggleCollapsed
  | .show_whitespace => toggleWhitespace

/-- `checkDeltaInstalled` from the composable, with the outcome of the
backend `check_delta` invocation passed in: on success record and return the
reported boolean, on any thrown error record and return `false`. -/
def checkDeltaInstalled (outcome : Except String Bool) (s : AppState) :
    Bool × AppState :=
  match outcome with
  | .ok installed => (installed, setDeltaInstalled installed s)
  | .error _ => (false, setDeltaInstalled false s)

/-- Modelled from the spec: the backend command `check_delta`
(`check_tool_available` in §6) is not under `src/`; per the spec it is a pure
capability probe that never fails and reports absence of the tool as `false`,
so its outcome is always `Except.ok` of the tool's availability. -/
def check_delta (toolAvailable : Bool) : Except String Bool :=
  .ok toolAvailable

/-! ## Claims about the store actions -/

/-- Projection of the `DiffOptions` field named by a key. -/
def optField : OptionKey → DiffOptions → Bool
  | .side_by_side, o => o.side_by_side
  | .line_numbers, o => o.line_numbers
  | .collapsed, o => o.collapsed
  | .show_whitespace, o => o.show_whitespace

/-- C9: for every options record and every key, `toggleViewOption` is an
involution that touches only the named field — applying it twice restores the
original record, and one application flips the named boolean field while the
other three fields keep their values. -/
theorem toggleViewOption_involutive_frame (o : DiffOptions) (k : OptionKey) :
    toggleViewOption (toggleViewOption o k) k = o ∧
    optField k (toggleViewOption o k) = !(optField k o) ∧
    ∀ k', k' ≠ k → optField k' (toggleViewOption o k) = optField k' o := by
  refine ⟨?_, ?_, ?_⟩
  · cases o; cases k <;> simp [toggleViewOption]
  · cases k <;> simp [toggleViewOption, optField]
  · intro k' hk
    cases k <;> cases k' <;> simp_all [toggleViewOption, optField]

/-- C9 witness: concrete double toggle of `collapsed` restores the default
options, flips `collapsed` once, and leaves `line_numbers` alone. -/
theorem toggleViewOption_involutive_frame_witness :
    toggleViewOption (toggleViewOption ⟨true, true, true, false⟩ .collapsed)
        .collapsed = ⟨true, true, true, false⟩ ∧
    optField .collapsed
        (toggleViewOption ⟨true, true, true, false⟩ .collapsed) =
      !(optField .collapsed ⟨true, true, true, false⟩) ∧
    optField .line_numbers
        (toggleViewOption ⟨true, true, true, false⟩ .collapsed) =
      optField .line_numbers ⟨true, true, true, false⟩ := by
  obtain ⟨h1, h2, h3⟩ :=
    toggleViewOption_involutive_frame ⟨true, true, true, false⟩ .collapsed
  exact ⟨h1, h2, h3 .line_numbers (by decide)⟩

/-- C4: when the `get_diff` render fails, the failure continuation of
`loadDiff` (`setDiffError`) sets the error message, clears the current diff,
ends the loading state, and leaves the file tree, the file list, the change
counts and the selected file untouched. -/
theorem loadDiffErr_frame (w : World) (e : String) :
    (loadDiffErr e w).store.diffError = some e ∧
    (loadDiffErr e w).store.currentDiff = none ∧
    (loadDiffErr e w).store.isLoadingDiff = false ∧
    (loadDiffErr e w).store.fileTree = w.store.fileTree ∧
    (loadDiffErr e w).store.files = w.store.files ∧
    (loadDiffErr e w).store.totalChanges = w.store.totalChanges ∧
    (loadDiffErr e w).store.addedCount = w.store.addedCount ∧
    (loadDiffErr e w).store.deletedCount = w.store.deletedCount ∧
    (loadDiffErr e w).store.modifiedCount = w.store.modifiedCount ∧
    (loadDiffErr e w).store.selectedFile = w.store.selectedFile := by
  refine ⟨rfl, rfl, rfl, rfl, rfl, rfl, rfl, rfl, rfl, rfl⟩

/-- C3: each of the four toggle functions flips exactly its option key; when
a file is selected it invalidates the current diff and issues exactly one new
`get_diff` request carrying the selected file's paths and the updated
options; when no file is selected it issues no request. -/
theorem toggleAction_regenerates (w : World) (k : OptionKey) :
    (toggleAction k w).store.viewOptions = toggleViewOption w.store.viewOptions k ∧
    (w.store.selectedFile = none → (toggleAction k w).requests = w.requests) ∧
    (∀ f, w.store.selectedFile = some f →
      (toggleAction k w).requests =
        w.requests ++ [⟨f.left_path, f.right_path, toggleViewOption w.store.viewOptions k⟩] ∧
      (toggleAction k w).store.currentDiff = none ∧
      (toggleAction k w).store.selectedFile = some f) := by
  have main : ∀ key, toggleAction key w =
      refreshDiff { w with store := storeToggleViewOption key w.store } := by
    intro key
    cases key <;> rfl
  refine ⟨?_, ?_, ?_⟩
  · rw [main]
    cases hsel : w.store.selectedFile <;>
      simp [refreshDiff, storeToggleViewOption, loadDiffStart, selectFile,
        setDiffLoading, hsel]
  · intro hsel
    rw [main]
    simp [refreshDiff, storeToggleViewOption, hsel]
  · intro f hsel
    rw [main]
    refine ⟨?_, ?_, ?_⟩ <;>
      simp [refreshDiff, storeToggleViewOption, loadDiffStart, selectFile,
        setDiffLoading, hsel]

/-- C3 witness: toggling side-by-side with a selected file issues exactly the
one request with that file's paths and the flipped options. -/
theorem toggleAction_regenerates_witness :
    (toggleAction .side_by_side
        { store := { initState with
            selectedFile := some ⟨"a.txt", "a.txt", .Modified, false,
              some "/L/a.txt", some "/R/a.txt"⟩ }
          requests := [] }).requests =
      [⟨some "/L/a.txt", some "/R/a.txt", ⟨false, true, true, false⟩⟩] ∧
    (toggleAction .side_by_side
        { store := { initState with
            selectedFile := some ⟨"a.txt", "a.txt", .Modified, false,
              some "/L/a.txt", some "/R/a.txt"⟩ }
          requests := [] }).store.currentDiff = none := by
  obtain ⟨-, -, h⟩ :=
    toggleAction_regenerates
      { store := { initState with
          selectedFile := some ⟨"a.txt", "a.txt", .Modified, false,
            some "/L/a.txt", some "/R/a.txt"⟩ }
        requests := [] } .side_by_side
  obtain ⟨h1, h2, -⟩ :=
    h ⟨"a.txt", "a.txt", .Modified, false, some "/L/a.txt", some "/R/a.txt"⟩ rfl
  exact ⟨h1, h2⟩

/-- C8: the tool-availability probe is total — it returns the backend's
boolean on success, returns `false` on any thrown error, returns `false` when
the (spec-modelled) backend reports the tool absent, and always records the
returned value in the store's `deltaInstalled` flag. -/
theorem checkDeltaInstalled_total (s : AppState) (b : Bool) (e : String)
    (outcome : Except String Bool) :
    (checkDeltaInstalled (check_delta false) s).1 = false ∧
    (checkDeltaInstalled (.error e) s).1 = false ∧
    (checkDeltaInstalled (.ok b) s).1 = b ∧
    ((checkDeltaInstalled outcome s).2).deltaInstalled =
      (checkDeltaInstalled outcome s).1 := by
  refine ⟨rfl, rfl, rfl, ?_⟩
  cases outcome <;> rfl

theorem findIdxQ_none_of_all_false {α : Type} (p : α → Bool) :
    ∀ (l : List α) (i : Nat), (∀ x ∈ l, p x = false) → l.findIdx? p i = none := by
  intro l
  induction l with
  | nil => intro i _; rfl
  | cons a l ih =>
    intro i h
    have ha := h a (by simp)
    have hrest : ∀ x ∈ l, p x = false := fun x hx => h x (by simp [hx])
    have hstep : (a :: l).findIdx? p i = l.findIdx? p (i + 1) := by
      simp [List.findIdx?, ha]
    rw [hstep]
    exact ih (i + 1) hrest

/-- C10: with no selection, or with a selected path absent from the
changed-file list, `currentFileIndex` is `-1`; in that state `selectNextFile`
selects the first changed file whenever the list is non-empty, while
`selectPrevFile` leaves the selection unchanged. -/
theorem currentFileIndex_sentinel_nav (s : AppState) :
    (s.selectedFile = none → currentFileIndex s = -1) ∧
    (∀ f, s.selectedFile = some f →
      (∀ e ∈ changedFiles s, e.path ≠ f.path) → currentFileIndex s = -1) ∧
    (currentFileIndex s = -1 → changedFiles s ≠ [] →
      (selectNextFile s).selectedFile = (changedFiles s).get? 0) ∧
    (currentFileIndex s = -1 →
      (selectPrevFile s).selectedFile = s.selectedFile) := by
  refine ⟨?_, ?_, ?_, ?_⟩
  · intro h
    simp [currentFileIndex, h]
  · intro f hf hnot
    have hnone : (changedFiles s).findIdx? (fun e => e.path = f.path) = none := by
      refine findIdxQ_none_of_all_false _ _ 0 ?_
      intro x hx
      simp [hnot x hx]
    simp [currentFileIndex, hf, hnone]
  · intro h hne
    have hlen : 0 < (changedFiles s).length := List.length_pos.mpr hne
    have hc : canGoNext s = true := by
      have : currentFileIndex s < ((changedFiles s).length : Int) - 1 := by
        rw [h]; omega
      simpa [canGoNext] using this
    cases hcf : changedFiles s with
    | nil => exact absurd hcf hne
    | cons x xs =>
      simp [selectNextFile, hc, h, hcf, selectFile]
  · intro h
    have hc : canGoPrev s = false := by
      simp [canGoPrev, h]
    simp [selectPrevFile, hc]

/-- C10 witness: in the initial (empty, unselected) store extended with one
changed file in the tree, the index is `-1`, `selectNextFile` picks that
file, and `selectPrevFile` changes nothing. -/
theorem currentFileIndex_sentinel_nav_witness :
    currentFileIndex { initState with
        fileTree := [.mk "a.txt" "a.txt" (some .Modified) false []
          (some "/L/a.txt") (some "/R/a.txt")] } = -1 ∧
    (selectNextFile { initState with
        fileTree := [.mk "a.txt" "a.txt" (some .Modified) false []
          (some "/L/a.txt") (some "/R/a.txt")] }).selectedFile =
      (changedFiles { initState with
        fileTree := [.mk "a.txt" "a.txt" (some .Modified) false []
          (some "/L/a.txt") (some "/R/a.txt")] }).get? 0 ∧
    (selectPrevFile { initState with
        fileTree := [.mk "a.txt" "a.txt" (some .Modified) false []
          (some "/L/a.txt") (some "/R/a.txt")] }).selectedFile =
      ({ initState with
        fileTree := [.mk "a.txt" "a.txt" (some .Modified) false []
          (some "/L/a.txt") (some "/R/a.txt")] } : AppState).selectedFile := by
  obtain ⟨h1, -, h3, h4⟩ :=
    currentFileIndex_sentinel_nav { initState with
      fileTree := [.mk "a.txt" "a.txt" (some .Modified) false []
        (some "/L/a.txt") (some "/R/a.txt")] }
  have hidx := h1 rfl
  refine ⟨hidx, h3 hidx ?_, h4 hidx⟩
  simp [changedFiles, flattenTree_cons, flattenTree_nil]

/-! ## Spec-side flattening (C5) -/

/-- Preorder listing of every node of a forest, each node before its
children. -/
def preorderNodes : List FileTreeNode → List FileTreeNode
  | [] => []
  | .mk name path status is_dir children lp rp :: rest =>
    .mk name path status is_dir children lp rp ::
      (preorderNodes children ++ preorderNodes rest)

theorem preorderNodes_nil : preorderNodes [] = [] := by
  rw [preorderNodes.eq_def]

theorem preorderNodes_cons (name path : String) (status : Option FileStatus)
    (is_dir : Bool) (children : List FileTreeNode) (lp rp : Option String)
    (rest : List FileTreeNode) :
    preorderNodes (.mk name path status is_dir children lp rp :: rest) =
      .mk name path status is_dir children lp rp ::
        (preorderNodes children ++ preorderNodes rest) := by
  rw [preorderNodes.eq_def]

/-- The claim's description of the changed-file list: in-order flattening of
the tree keeping exactly the non-directory nodes with a non-null status, each
mapped to a `FileEntry` with the same path, name, status and side paths. -/
def specFlatten (ts : List FileTreeNode) : List FileEntry :=
  (preorderNodes ts).filterMap fun n =>
    if n.is_dir then none
    else n.status.map fun st =>
      ⟨n.path, n.name, st, false, n.left_path, n.right_path⟩

/-- Well-formed forest: non-directory nodes carry no children (the shape the
backend produces, matching the spec's "leaf view ... (no children)"). -/
def wfNodes : List FileTreeNode → Bool
  | [] => true
  | .mk _ _ _ is_dir children _ _ :: rest =>
    (is_dir || children.isEmpty) && wfNodes children && wfNodes rest

theorem wfNodes_nil : wfNodes [] = true := by
  rw [wfNodes.eq_def]

theorem wfNodes_cons (name path : String) (status : Option FileStatus)
    (is_dir : Bool) (children : List FileTreeNode) (lp rp : Option String)
    (rest : List FileTreeNode) :
    wfNodes (.mk name path status is_dir children lp rp :: rest) =
      ((is_dir || children.isEmpty) && wfNodes children && wfNodes rest) := by
  rw [wfNodes.eq_def]

theorem flattenTree_eq_specFlatten :
    ∀ ts : List FileTreeNode, wfNodes ts = true → flattenTree ts = specFlatten ts
  | [], _ => by
    simp [flattenTree_nil, specFlatten, preorderNodes_nil]
  | .mk name path status is_dir children lp rp :: rest, h => by
    rw [wfNodes_cons] at h
    simp only [Bool.and_eq_true, Bool.or_eq_true] at h
    obtain ⟨⟨hshape, hwfc⟩, hwfr⟩ := h
    have ihc := flattenTree_eq_specFlatten children hwfc
    have ihr := flattenTree_eq_specFlatten rest hwfr
    simp only [specFlatten] at ihc ihr ⊢
    rw [flattenTree_cons, preorderNodes_cons, List.filterMap_cons,
      List.filterMap_append]
    cases hdir : is_dir with
    | true =>
      simp [FileTreeNode.is_dir, ihc, ihr]
    | false =>
      have hchild : children = [] := by
        cases hshape with
        | inl hd => rw [hd] at hdir; cases hdir
        | inr he => exact List.isEmpty_iff.mp he
      subst hchild
      cases status with
      | none =>
        simp [FileTreeNode.is_dir, FileTreeNode.status, preorderNodes_nil, ihr]
      | some st =>
        simp [FileTreeNode.is_dir, FileTreeNode.status, FileTreeNode.path,
          FileTreeNode.name, FileTreeNode.left_path, FileTreeNode.right_path,
          preorderNodes_nil, ihr]

/-- C5: for a well-formed tree (file nodes carry no children), the
`changedFiles` computed is exactly the in-order flattening of the current
file tree keeping the non-directory nodes with non-null status, each mapped
to a `FileEntry` with the same path, name, status and side paths; it is a
pure function of the tree. -/
theorem changedFiles_eq_specFlatten (s : AppState)
    (h : wfNodes s.fileTree = true) :
    changedFiles s = specFlatten s.fileTree :=
  flattenTree_eq_specFlatten s.fileTree h

/-- C5 witness: a concrete two-level tree (a directory holding a modified
file plus an unchanged top-level file) flattens to the same list under the
code's `flattenTree` and the claim's description. -/
theorem changedFiles_eq_specFlatten_witness :
    wfNodes [.mk "sub" "sub" none true
        [.mk "a.txt" "sub/a.txt" (some .Modified) false []
          (some "/L/sub/a.txt") (some "/R/sub/a.txt")] none none,
      .mk "b.txt" "b.txt" none false [] (some "/L/b.txt") (some "/R/b.txt")] = true ∧
    changedFiles { initState with
        fileTree := [.mk "sub" "sub" none true
          [.mk "a.txt" "sub/a.txt" (some .Modified) false []
            (some "/L/sub/a.txt") (some "/R/sub/a.txt")] none none,
        .mk "b.txt" "b.txt" none false [] (some "/L/b.txt") (some "/R/b.txt")] } =
      specFlatten [.mk "sub" "sub" none true
        [.mk "a.txt" "sub/a.txt" (some .Modified) false []
          (some "/L/sub/a.txt") (some "/R/sub/a.txt")] none none,
      .mk "b.txt" "b.txt" none false [] (some "/L/b.txt") (some "/R/b.txt")] := by
  have hwf : wfNodes [.mk "sub" "sub" none true
      [.mk "a.txt" "sub/a.txt" (some .Modified) false []
        (some "/L/sub/a.txt") (some "/R/sub/a.txt")] none none,
    .mk "b.txt" "b.txt" none false [] (some "/L/b.txt") (some "/R/b.txt")] = true := by
    simp [wfNodes_cons, wfNodes_nil]
  exact ⟨hwf, changedFiles_eq_specFlatten { initState with
    fileTree := [.mk "sub" "sub" none true
      [.mk "a.txt" "sub/a.txt" (some .Modified) false []
        (some "/L/sub/a.txt") (some "/R/sub/a.txt")] none none,
    .mk "b.txt" "b.txt" none false [] (some "/L/b.txt") (some "/R/b.txt")] } hwf⟩

/-! ## C1: out-of-order completion of a still-running render

`loadDiff` carries no request token or generation counter: its continuation
after `await invoke('get_diff', ...)` is `store.setDiff(result)`, which stores
the result unconditionally. The trace below interleaves two `loadDiff` calls:
the render for `fileA` is still in flight when `fileB` is selected, and when
it completes its result becomes the displayed `currentDiff` although `fileB`
is the selected file. -/

/-- A first concrete changed file. -/
def fileA : FileEntry :=
  ⟨"a.txt", "a.txt", .Modified, false, some "/L/a.txt", some "/R/a.txt"⟩

/-- A second, different concrete changed file. -/
def fileB : FileEntry :=
  ⟨"b.txt", "b.txt", .Modified, false, some "/L/b.txt", some "/R/b.txt"⟩

/-- The diff result with which the render for `fileA` resolves. -/
def resultA : DiffResult :=
  ⟨"rendered diff of a.txt", true, 1, none, none⟩

/-- The interleaving: `loadDiff fileA` starts; before its `get_diff` resolves
the user selects `fileB` (`loadDiff fileB` starts); then the still-running
render for `fileA` resolves and its continuation `store.setDiff(result)`
runs. -/
def staleTrace : World :=
  loadDiffOk resultA
    (loadDiffStart fileB
      (loadDiffStart fileA { store := initState, requests := [] }))

/-- C1: the code violates the claim — there is no request token, and in the
interleaving where the render for `fileA` is still in flight when `fileB` is
selected, the late completion for `fileA` is stored by `setDiff` and is
displayed as the current `DiffResult` while `fileB` is the selected file. -/
theorem loadDiff_stale_result_displayed :
    staleTrace.store.selectedFile = some fileB ∧
    staleTrace.store.currentDiff = some resultA ∧
    fileA ≠ fileB := by
  exact ⟨rfl, rfl, by decide⟩

/-! ## C6: requests issued per act of selecting a file

`handleFileClick` in FileTree calls `loadDiff` directly, and the DiffView
component also watches `store.selectedFile` and calls `loadDiff` again when
the stored reference changes. The model tracks JS object identity: the click
handler allocates a fresh `FileEntry` object per click, `selectFile` stores
it in the `selectedFile` ref, and the watcher is scheduled exactly when the
stored reference changes (Vue compares with `Object.is`). -/

/-- A `FileEntry` object together with its JS object identity. -/
structure ObjEntry where
  oid : Nat
  entry : FileEntry
deriving DecidableEq, Repr

/-- Reference equality of the nullable selection (JS `Object.is`). -/
def sameRef : Option ObjEntry → Option ObjEntry → Bool
  | none, none => true
  | some a, some b => a.oid == b.oid
  | _, _ => false

/-- Front-end state of the selection pipeline: the `selectedFile` ref, the
pending flag of the DiffView watcher on it, the allocator for fresh entry
objects, plus the diff fields and the `get_diff` request log. -/
structure UIState where
  sel : Option ObjEntry
  watcherPending : Bool
  nextOid : Nat
  opts : DiffOptions
  currentDiff : Option DiffResult
  isLoadingDiff : Bool
  diffError : Option String
  requests : List DiffRequest
deriving DecidableEq, Repr

/-- `selectFile` at the ref level: store the object, clear the diff and its
error, and schedule the `selectedFile` watcher when the reference changed. -/
def uiSelectFile (o : Option ObjEntry) (u : UIState) : UIState :=
  { u with sel := o, currentDiff := none, diffError := none,
           watcherPending := u.watcherPending || !sameRef o u.sel }

/-- `loadDiff` up to its `invoke`: set the loading flag, select the object,
and issue the `get_diff` request for its paths and the current options. -/
def uiLoadDiff (o : ObjEntry) (u : UIState) : UIState :=
  let u1 := uiSelectFile (some o) { u with isLoadingDiff := true }
  { u1 with
      requests :=
        u1.requests ++ [⟨o.entry.left_path, o.entry.right_path, u1.opts⟩] }

/-- `handleFileClick` in FileTree: for a non-directory node, build a fresh
`FileEntry` object (null status defaults to `Unchanged`) and load its diff. -/
def handleFileClick (node : FileTreeNode) (u : UIState) : UIState :=
  if node.is_dir then u
  else
    uiLoadDiff
      ⟨u.nextOid,
        ⟨node.path, node.name, node.status.getD .Unchanged, false,
          node.left_path, node.right_path⟩⟩
      { u with nextOid := u.nextOid + 1 }

/-- One flush of the DiffView watcher on `selectedFile`: when a run is
pending, its callback reloads the diff of the (non-null) selection. -/
def flushWatcher (u : UIState) : UIState :=
  if u.watcherPending then
    match u.sel with
    | some o => uiLoadDiff o { u with watcherPending := false }
    | none => { u with watcherPending := false }
  else u

/-- A concrete changed-file tree node clicked by the user. -/
def nodeA : FileTreeNode :=
  .mk "a.txt" "a.txt" (some .Modified) false [] (some "/L/a.txt")
    (some "/R/a.txt")

/-- Quiescent UI state: nothing selected, no watcher run pending, no request
issued yet, default options. -/
def quiescent : UIState :=
  ⟨none, false, 0, ⟨true, true, true, false⟩, none, false, none, []⟩

/-- C6 counterexample: a single act of selecting a file — one click on a
changed file in the tree, followed by the scheduled watcher flush — issues
the `get_diff` request twice, not exactly once as claimed: once from the
direct `loadDiff` call in `handleFileClick`, once from the `selectedFile`
watcher in DiffView. -/
theorem treeClick_two_requests :
    (flushWatcher (handleFileClick nodeA quiescent)).requests =
      [⟨some "/L/a.txt", some "/R/a.txt", ⟨true, true, true, false⟩⟩,
       ⟨some "/L/a.txt", some "/R/a.txt", ⟨true, true, true, false⟩⟩] ∧
    ¬(flushWatcher (handleFileClick nodeA quiescent)).requests.length = 1 := by
  have h : (flushWatcher (handleFileClick nodeA quiescent)).requests =
      [⟨some "/L/a.txt", some "/R/a.txt", ⟨true, true, true, false⟩⟩,
       ⟨some "/L/a.txt", some "/R/a.txt", ⟨true, true, true, false⟩⟩] := rfl
  exact ⟨h, by rw [h]; decide⟩

/-- C6 amended: clicking a non-directory node in a quiescent UI (no watcher
run pending, selection older than the fresh object id) issues the `get_diff`
request exactly twice — the direct `loadDiff` call plus the `selectedFile`
watcher — both identical and both for the clicked file; and every request
`loadDiff` issues carries the paths of the object that is the current
selection at the moment of issue, so no request is ever issued for a file
other than the current selection. -/
theorem treeClick_requests_amended (node : FileTreeNode) (u : UIState)
    (hdir : node.is_dir = false) (hp : u.watcherPending = false)
    (hsel : ∀ o, u.sel = some o → o.oid < u.nextOid) :
    (flushWatcher (handleFileClick node u)).requests =
      u.requests ++
        [⟨node.left_path, node.right_path, u.opts⟩,
         ⟨node.left_path, node.right_path, u.opts⟩] ∧
    (∀ o w, (uiLoadDiff o w).sel = some o ∧
      (uiLoadDiff o w).requests =
        w.requests ++ [⟨o.entry.left_path, o.entry.right_path, w.opts⟩]) := by
  constructor
  · have hfresh : ∀ e, sameRef (some ⟨u.nextOid, e⟩) u.sel = false := by
      intro e
      cases hs : u.sel with
      | none => rfl
      | some o =>
        have hlt := hsel o hs
        have hne : u.nextOid ≠ o.oid := by omega
        simp [sameRef, hne]
    simp [handleFileClick, hdir, uiLoadDiff, uiSelectFile, flushWatcher, hp,
      hfresh]
  · intro o w
    constructor
    · rfl
    · rfl

/-- C6 amended witness: concrete click on `nodeA` from the quiescent state
issues exactly the two identical requests, and a concrete `loadDiff` call
selects the object whose request it issues. -/
theorem treeClick_requests_amended_witness :
    (flushWatcher (handleFileClick nodeA quiescent)).requests =
      quiescent.requests ++
        [⟨some "/L/a.txt", some "/R/a.txt", ⟨true, true, true, false⟩⟩,
         ⟨some "/L/a.txt", some "/R/a.txt", ⟨true, true, true, false⟩⟩] ∧
    (uiLoadDiff ⟨0, fileA⟩ quiescent).sel = some ⟨0, fileA⟩ := by
  obtain ⟨h1, h2⟩ :=
    treeClick_requests_amended nodeA quiescent rfl rfl
      (fun o h => Option.noConfusion h)
  exact ⟨h1, (h2 ⟨0, fileA⟩ quiescent).1⟩
